import Mathlib

/-!
Verification development for the inkspired landing page.

The embedding covers:
- the whitespace-trimming semantics used by the draft guard (the trim of
  a JS string removes the JS WhiteSpace and LineTerminator code points
  from both ends);
- the PromptInput component of src/src/PromptPage.tsx: its draft state,
  the submit handler, the keydown handler, the send-button enabled state
  and class selection, and the auto-resize effect;
- the page-level instantiation of the four decorative ElegantShape
  components and the class lists of their rendered markup;
- the class-name merge utility cn of the lib/utils module, with the
  third-party clsx and tailwind-merge behaviour modelled from the spec.
-/

namespace Inkspired

/-- The set of code points removed by the trim of a JS string: the
WhiteSpace production (TAB, VT, FF, SP, NBSP, ZWNBSP and the Zs
category) together with the LineTerminator production (LF, CR, LS, PS). -/
def isJsWhitespace (c : Char) : Bool :=
  c.val == 0x9 || c.val == 0xA || c.val == 0xB || c.val == 0xC ||
  c.val == 0xD || c.val == 0x20 || c.val == 0xA0 || c.val == 0x1680 ||
  (decide (0x2000 ≤ c.val) && decide (c.val ≤ 0x200A)) ||
  c.val == 0x2028 || c.val == 0x2029 || c.val == 0x202F ||
  c.val == 0x205F || c.val == 0x3000 || c.val == 0xFEFF

/-- JS String.prototype.trim: drop whitespace from both ends. -/
def jsTrim (s : String) : String :=
  ⟨((s.data.dropWhile isJsWhitespace).reverse.dropWhile isJsWhitespace).reverse⟩

/-- The observable state of one PromptInput component instance: the
draft text held by the useState hook, and the log of arguments of the
onSend invocations made so far (most recent last). -/
structure InputState where
  input : String
  sent : List String
deriving DecidableEq, Repr

/-- The state right after mount: useState starts the draft empty and no
onSend call has happened. -/
def initialState : InputState := ⟨"", []⟩

/-- handleSubmit of PromptInput: when the trimmed draft is truthy
(non-empty), call onSend with the raw draft and clear the draft;
otherwise do nothing. -/
def handleSubmit (st : InputState) : InputState :=
  if jsTrim st.input ≠ "" then ⟨"", st.sent ++ [st.input]⟩ else st

/-- handleKeyDown of PromptInput: on Enter without Shift, call
preventDefault and submit. The first component records whether
preventDefault was called. -/
def handleKeyDown (st : InputState) (key : String) (shiftKey : Bool) :
    Bool × InputState :=
  if key = "Enter" ∧ shiftKey = false then (true, handleSubmit st)
  else (false, st)

/-- Modelled from the spec: the default keydown action of the browser on
a textarea, which the repository code does not implement itself. When
the handler has not prevented it, an Enter key inserts a literal newline
into the draft (modelled with the caret at the end of the text); other
keys leave the draft alone here (ordinary typing is modelled separately
by the change event). -/
def browserDefaultKey (st : InputState) (key : String) : InputState :=
  if key = "Enter" then ⟨st.input ++ "\n", st.sent⟩ else st

/-- A full keydown on the textarea: run the handler, then the default
browser action unless the handler prevented it. -/
def keyDownStep (st : InputState) (key : String) (shiftKey : Bool) :
    InputState :=
  let r := handleKeyDown st key shiftKey
  if r.1 then r.2 else browserDefaultKey r.2 key

/-- hasContent of PromptInput: the trimmed draft is not the empty
string. -/
def hasContent (input : String) : Bool := decide (jsTrim input ≠ "")

/-- The disabled attribute of the send button: the negation of
hasContent. -/
def sendButtonDisabled (input : String) : Bool := !hasContent input

/-- A click on the send button: a disabled button fires no onClick, an
enabled one runs handleSubmit. -/
def clickSend (st : InputState) : InputState :=
  if sendButtonDisabled st.input then st else handleSubmit st

/-- The onChange handler of the textarea: setInput with the new field
value. -/
def changeInput (st : InputState) (s : String) : InputState :=
  ⟨s, st.sent⟩

/-- The user-facing events a PromptInput instance reacts to. -/
inductive Event where
  | change (s : String)
  | keyDown (key : String) (shiftKey : Bool)
  | clickSendButton
deriving DecidableEq, Repr

/-- One event step of the component. -/
def step (st : InputState) : Event → InputState
  | .change s => changeInput st s
  | .keyDown k sh => keyDownStep st k sh
  | .clickSendButton => clickSend st

/-- Run a sequence of events from the freshly mounted component. -/
def run (es : List Event) : InputState := es.foldl step initialState

/-- A CSS height value assigned to the style of the textarea. -/
inductive CssHeight where
  | auto
  | px (n : Nat)
deriving DecidableEq, Repr

/-- The auto-resize useEffect of PromptInput, run after every draft
change: it first resets the height of the textarea to auto, then sets
it to the minimum of the measured scrollHeight and 200 pixels. The
list records the successive assignments in order. -/
def autoResizeAssignments (scrollHeight : Nat) : List CssHeight :=
  [CssHeight.auto, CssHeight.px (min scrollHeight 200)]

/-- The height the textarea ends up with after the effect runs, starting
from a previous height value: the last assignment wins. -/
def appliedHeight (prev : CssHeight) (scrollHeight : Nat) : CssHeight :=
  (autoResizeAssignments scrollHeight).foldl (fun _ h => h) prev

/-- The numeric value of a CSS height, with auto read as 0. -/
def pxValue : CssHeight → Nat
  | .auto => 0
  | .px n => n

/-- One argument value accepted by the cn utility of lib/utils: a
string fragment, a falsy entry (null, undefined, false, 0 or the empty
string of a failed conditional), or a nested collection of such. -/
inductive ClassValue where
  | str (s : String)
  | falsy
  | arr (xs : List ClassValue)
deriving Repr

/-- Split a character list into its maximal space-free runs, dropping
empty runs; the accumulator holds the current run reversed. -/
def splitClassesAux : List Char → List Char → List String
  | [], acc => if acc.isEmpty then [] else [⟨acc.reverse⟩]
  | c :: rest, acc =>
      if c = ' ' then
        (if acc.isEmpty then [] else [(⟨acc.reverse⟩ : String)]) ++
          splitClassesAux rest []
      else splitClassesAux rest (c :: acc)

/-- The space-separated class tokens of one string fragment. -/
def splitClasses (s : String) : List String := splitClassesAux s.data []

mutual

/-- Modelled from the spec: the class tokens one clsx fragment
contributes: a string fragment contributes its space-separated tokens,
a falsy entry contributes nothing, a nested collection contributes the
tokens of its members in order. -/
def classValueTokens : ClassValue → List String
  | ClassValue.str s => splitClasses s
  | ClassValue.falsy => []
  | ClassValue.arr xs => clsxTokens xs

/-- Modelled from the spec: the clsx library (a third-party dependency,
not part of this repository) flattens the ordered sequence of
class-name fragments into the listed class tokens, ignoring falsy
entries. -/
def clsxTokens : List ClassValue → List String
  | [] => []
  | v :: rest => classValueTokens v ++ clsxTokens rest

end

/-- Modelled from the spec: the conflict category the tailwind-merge
library (a third-party dependency, not part of this repository) assigns
to a utility class, so that later-listed classes of the same category
override earlier ones. Only the text-color category instance named by
the spec is mapped; every other class conflicts exactly with itself. -/
def twGroup (c : String) : String :=
  if c = "text-red-500" ∨ c = "text-blue-500" then "text-color" else c

/-- Modelled from the spec: the tailwind-merge conflict resolution over
an ordered token list: a token survives iff no later token has the same
conflict category. -/
def twMergeTokens : List String → List String
  | [] => []
  | t :: ts =>
      if ts.any (fun u => twGroup u == twGroup t) then twMergeTokens ts
      else t :: twMergeTokens ts

/-- The token list of the cn utility of lib/utils: twMerge applied to
the clsx flattening of the inputs. -/
def cnTokens (inputs : List ClassValue) : List String :=
  twMergeTokens (clsxTokens inputs)

/-- cn of lib/utils: the space-separated merged class string. -/
def cn (inputs : List ClassValue) : String :=
  String.intercalate " " (cnTokens inputs)

/-- The className expression of the send button of PromptInput: the
base classes, then the emphasized gradient classes when hasContent and
the muted classes otherwise, merged by cn. -/
def sendButtonClassNames (input : String) : List String :=
  cnTokens
    [ClassValue.str "flex h-9 w-9 items-center justify-center rounded-full transition-all",
     ClassValue.str
       (if hasContent input then
         "bg-gradient-to-r from-purple-500 to-pink-500 text-white hover:from-purple-600 hover:to-pink-600 shadow-lg"
       else
         "bg-white/10 text-white/40 cursor-not-allowed")]

/-- The props of one ElegantShape instance. -/
structure ShapeConfig where
  className : String
  delay : ℚ
  width : Nat
  height : Nat
  rotate : Int
  gradient : String

/-- One rendered DOM element: its resolved class tokens and the names of
the event-handler props attached to it. -/
structure Element where
  classes : List String
  handlers : List String
deriving DecidableEq, Repr

/-- The markup rendered by ElegantShape: the outer motion div with the
merged absolute positioning classes, the inner sized motion div, and
the innermost gradient div. No element attaches any event-handler
prop. -/
def elegantShapeElements (cfg : ShapeConfig) : List Element :=
  [⟨cnTokens [ClassValue.str "absolute", ClassValue.str cfg.className], []⟩,
   ⟨["relative"], []⟩,
   ⟨cnTokens
      [ClassValue.str "absolute inset-0 rounded-full",
       ClassValue.str "bg-gradient-to-r to-transparent",
       ClassValue.str cfg.gradient,
       ClassValue.str "backdrop-blur-[2px] border-2 border-white/[0.15]",
       ClassValue.str "shadow-[0_8px_32px_0_rgba(255,255,255,0.1)]",
       ClassValue.str "after:absolute after:inset-0 after:rounded-full",
       ClassValue.str "after:bg-[radial-gradient(circle_at_50%_50%,rgba(255,255,255,0.2),transparent_70%)]"],
    []⟩]

/-- The four shape configurations instantiated by PromptPage, in
source order. -/
def pageShapes : List ShapeConfig :=
  [⟨"left-[-10%] md:left-[-5%] top-[15%] md:top-[20%]", 3/10, 600, 140, 12,
    "from-purple-500/[0.15]"⟩,
   ⟨"right-[-5%] md:right-[0%] top-[70%] md:top-[75%]", 5/10, 500, 120, -15,
    "from-pink-500/[0.15]"⟩,
   ⟨"left-[5%] md:left-[10%] bottom-[5%] md:bottom-[10%]", 4/10, 300, 80, -8,
    "from-violet-500/[0.15]"⟩,
   ⟨"right-[15%] md:right-[20%] top-[10%] md:top-[15%]", 6/10, 200, 60, 20,
    "from-fuchsia-500/[0.15]"⟩]

/-- Modelled from the spec and the CSS hit-testing rules: a rendered
element intercepts pointer events unless it carries the
pointer-events-none utility class (the default computed pointer-events
value of a div is auto, which makes it a hit-test target). -/
def interceptsPointerEvents (e : Element) : Bool :=
  !(e.classes.contains "pointer-events-none")

/-! ### Helper lemmas about trimming -/

theorem dropWhile_eq_nil_of_all {p : Char → Bool} :
    ∀ l : List Char, (∀ c ∈ l, p c = true) → l.dropWhile p = [] := by
  intro l h
  induction l with
  | nil => rfl
  | cons a l ih =>
      rw [List.dropWhile_cons]
      simp only [h a (by simp), if_true]
      exact ih fun c hc => h c (by simp [hc])

theorem dropWhile_eq_self_of_none {p : Char → Bool} :
    ∀ l : List Char, (∀ c ∈ l, p c = false) → l.dropWhile p = l := by
  intro l h
  induction l with
  | nil => rfl
  | cons a l ih =>
      rw [List.dropWhile_cons]
      simp only [h a (by simp)]
      simp

theorem jsTrim_of_all_ws {s : String}
    (h : ∀ c ∈ s.data, isJsWhitespace c = true) : jsTrim s = "" := by
  unfold jsTrim
  rw [dropWhile_eq_nil_of_all s.data h]
  rfl

theorem jsTrim_of_no_ws {s : String}
    (h : ∀ c ∈ s.data, isJsWhitespace c = false) : jsTrim s = s := by
  unfold jsTrim
  rw [dropWhile_eq_self_of_none s.data h,
    dropWhile_eq_self_of_none s.data.reverse
      (fun c hc => h c (List.mem_reverse.mp hc)),
    List.reverse_reverse]

theorem hasContent_eq_true_iff {input : String} :
    hasContent input = true ↔ jsTrim input ≠ "" := by
  simp [hasContent]

/-! ### Helper lemmas about event steps -/

theorem handleSubmit_sent_mem {st : InputState} {m : String}
    (h : m ∈ (handleSubmit st).sent) : m ∈ st.sent ∨ jsTrim m ≠ "" := by
  by_cases hc : jsTrim st.input ≠ ""
  · simp only [handleSubmit, if_pos hc] at h
    rcases List.mem_append.mp h with h1 | h2
    · exact Or.inl h1
    · simp only [List.mem_singleton] at h2
      exact Or.inr (h2 ▸ hc)
  · simp only [handleSubmit, if_neg hc] at h
    exact Or.inl h

theorem step_sent_mem (st : InputState) (e : Event) (m : String)
    (h : m ∈ (step st e).sent) : m ∈ st.sent ∨ jsTrim m ≠ "" := by
  cases e with
  | change s => exact Or.inl h
  | keyDown k sh =>
      by_cases hcond : k = "Enter" ∧ sh = false
      · simp only [step, keyDownStep, handleKeyDown, if_pos hcond] at h
        exact handleSubmit_sent_mem h
      · simp only [step, keyDownStep, handleKeyDown, if_neg hcond] at h
        by_cases hk : k = "Enter" <;>
          simp only [browserDefaultKey, hk, if_true, if_pos, if_neg,
            ite_true, ite_false, if_false] at h <;>
          exact Or.inl h
  | clickSendButton =>
      cases hd : sendButtonDisabled st.input with
      | true => simp only [step, clickSend, hd, if_true, ite_true] at h; exact Or.inl h
      | false =>
          simp only [step, clickSend, hd, Bool.false_eq_true, if_false,
            ite_false] at h
          exact handleSubmit_sent_mem h

theorem foldl_sent_invariant :
    ∀ (es : List Event) (st : InputState),
      (∀ m ∈ st.sent, jsTrim m ≠ "") →
      ∀ m ∈ (es.foldl step st).sent, jsTrim m ≠ "" := by
  intro es
  induction es with
  | nil => intro st h; exact h
  | cons e es ih =>
      intro st h m hm
      refine ih (step st e) ?_ m hm
      intro m2 hm2
      rcases step_sent_mem st e m2 hm2 with h1 | h2
      · exact h m2 h1
      · exact h2

/-! ### Helper lemmas about the class merge -/

theorem clsxTokens_append :
    ∀ xs ys : List ClassValue,
      clsxTokens (xs ++ ys) = clsxTokens xs ++ clsxTokens ys := by
  intro xs ys
  induction xs with
  | nil => rfl
  | cons v rest ih => simp [clsxTokens, ih]

theorem twMergeTokens_of_pairwise :
    ∀ ts : List String, ts.Pairwise (fun a b => twGroup a ≠ twGroup b) →
      twMergeTokens ts = ts := by
  intro ts h
  induction ts with
  | nil => rfl
  | cons t ts ih =>
      rw [List.pairwise_cons] at h
      have hany : ts.any (fun u => twGroup u == twGroup t) = false := by
        rw [List.any_eq_false]
        intro u hu
        simp only [beq_iff_eq]
        exact fun he => h.1 u hu he.symm
      simp [twMergeTokens, hany, ih h.2]

/-! ### Claim theorems -/

/-- C1: for every draft whose trimmed form is non-empty, submission by
the submit handler, the Enter keydown path or the send-button click
invokes onSend exactly once with the raw untrimmed draft, and the draft
is reset to the empty string. -/
theorem submit_nonblank_sends_raw_once (s : String) (L : List String)
    (h : jsTrim s ≠ "") :
    handleSubmit ⟨s, L⟩ = ⟨"", L ++ [s]⟩ ∧
    keyDownStep ⟨s, L⟩ "Enter" false = ⟨"", L ++ [s]⟩ ∧
    clickSend ⟨s, L⟩ = ⟨"", L ++ [s]⟩ := by
  have hs : handleSubmit ⟨s, L⟩ = ⟨"", L ++ [s]⟩ := by
    simp [handleSubmit, h]
  refine ⟨hs, ?_, ?_⟩
  · simp only [keyDownStep, handleKeyDown]
    simp [hs]
  · simp only [clickSend, sendButtonDisabled, hasContent]
    simp [h, hs]

/-- Witness for C1 at the draft Hello. -/
theorem submit_nonblank_sends_raw_once_witness :
    handleSubmit ⟨"Hello", []⟩ = ⟨"", ["Hello"]⟩ ∧
    keyDownStep ⟨"Hello", []⟩ "Enter" false = ⟨"", ["Hello"]⟩ ∧
    clickSend ⟨"Hello", []⟩ = ⟨"", ["Hello"]⟩ :=
  submit_nonblank_sends_raw_once "Hello" [] (by decide)

/-- C2: for every draft consisting only of whitespace (the empty string
included), submission by any path leaves the state unchanged: the draft
is untouched and onSend is not invoked. -/
theorem submit_whitespace_only_noop (s : String) (L : List String)
    (h : ∀ c ∈ s.data, isJsWhitespace c = true) :
    handleSubmit ⟨s, L⟩ = ⟨s, L⟩ ∧
    keyDownStep ⟨s, L⟩ "Enter" false = ⟨s, L⟩ ∧
    clickSend ⟨s, L⟩ = ⟨s, L⟩ := by
  have ht : jsTrim s = "" := jsTrim_of_all_ws h
  have hs : handleSubmit ⟨s, L⟩ = ⟨s, L⟩ := by
    simp [handleSubmit, ht]
  refine ⟨hs, ?_, ?_⟩
  · simp only [keyDownStep, handleKeyDown]
    simp [hs]
  · simp [clickSend, sendButtonDisabled, hasContent, ht]

/-- Witness for C2 at a one-space draft. -/
theorem submit_whitespace_only_noop_witness :
    handleSubmit ⟨" ", []⟩ = ⟨" ", []⟩ ∧
    keyDownStep ⟨" ", []⟩ "Enter" false = ⟨" ", []⟩ ∧
    clickSend ⟨" ", []⟩ = ⟨" ", []⟩ :=
  submit_whitespace_only_noop " " [] (by decide)

/-- C3: Enter without Shift calls preventDefault and runs the submit
path, so no newline is inserted; Enter with Shift leaves the handler
inert, so the browser default inserts a literal newline and no onSend
call happens; in particular the draft Hello becomes Hello followed by a
newline with an empty send log. -/
theorem enter_key_submission_and_newline (s : String) (L : List String) :
    (handleKeyDown ⟨s, L⟩ "Enter" false).1 = true ∧
    keyDownStep ⟨s, L⟩ "Enter" false = handleSubmit ⟨s, L⟩ ∧
    (handleKeyDown ⟨s, L⟩ "Enter" true).1 = false ∧
    keyDownStep ⟨s, L⟩ "Enter" true = ⟨s ++ "\n", L⟩ ∧
    keyDownStep ⟨"Hello", []⟩ "Enter" true = ⟨"Hello\n", []⟩ := by
  refine ⟨by simp [handleKeyDown], ?_, by simp [handleKeyDown], ?_, by decide⟩
  · simp [keyDownStep, handleKeyDown]
  · simp [keyDownStep, handleKeyDown, browserDefaultKey]

/-- C4: the send button is enabled exactly when the trimmed draft is
non-empty, and its merged class list carries the muted classes when
disabled and the emphasized gradient classes when enabled. -/
theorem send_button_enabled_iff_trim_nonempty (input : String) :
    (sendButtonDisabled input = false ↔ jsTrim input ≠ "") ∧
    (sendButtonDisabled input = true ↔ jsTrim input = "") ∧
    (jsTrim input = "" →
      "text-white/40" ∈ sendButtonClassNames input ∧
      "cursor-not-allowed" ∈ sendButtonClassNames input) ∧
    (jsTrim input ≠ "" →
      "shadow-lg" ∈ sendButtonClassNames input ∧
      "from-purple-500" ∈ sendButtonClassNames input) := by
  refine ⟨by simp [sendButtonDisabled, hasContent],
    by simp [sendButtonDisabled, hasContent], ?_, ?_⟩
  · intro h
    have hc : hasContent input = false := by simp [hasContent, h]
    rw [sendButtonClassNames, hc]
    decide
  · intro h
    have hc : hasContent input = true := by simp [hasContent, h]
    rw [sendButtonClassNames, hc]
    decide

/-- Witness for C4 at the empty draft and at the draft Hello. -/
theorem send_button_enabled_iff_trim_nonempty_witness :
    ("text-white/40" ∈ sendButtonClassNames "" ∧
      "cursor-not-allowed" ∈ sendButtonClassNames "") ∧
    ("shadow-lg" ∈ sendButtonClassNames "Hello" ∧
      "from-purple-500" ∈ sendButtonClassNames "Hello") :=
  ⟨(send_button_enabled_iff_trim_nonempty "").2.2.1 (by decide),
   (send_button_enabled_iff_trim_nonempty "Hello").2.2.2 (by decide)⟩

/-- C5 counterexample: the empty string contains no whitespace
character, yet submitting it invokes nothing and the state stays at the
empty send log instead of gaining one onSend call. -/
theorem submit_empty_string_counterexample :
    (("" : String).data.all (fun c => !isJsWhitespace c) = true) ∧
    handleSubmit ⟨"", []⟩ = ⟨"", []⟩ ∧
    (⟨"", []⟩ : InputState) ≠ ⟨"", [""]⟩ := by decide

/-- C5 amended: for every NON-EMPTY draft containing no whitespace
character, submitting invokes onSend exactly once with the draft and
resets the draft to the empty string. -/
theorem submit_nonempty_no_ws_sends (s : String) (L : List String)
    (hne : s ≠ "") (h : ∀ c ∈ s.data, isJsWhitespace c = false) :
    handleSubmit ⟨s, L⟩ = ⟨"", L ++ [s]⟩ := by
  have ht : jsTrim s = s := jsTrim_of_no_ws h
  simp [handleSubmit, ht, hne]

/-- Witness for the amended C5 at the draft abc. -/
theorem submit_nonempty_no_ws_sends_witness :
    handleSubmit ⟨"abc", []⟩ = ⟨"", ["abc"]⟩ :=
  submit_nonempty_no_ws_sends "abc" [] (by decide) (by decide)

/-- C6: the auto-resize effect first resets the height to auto and then
applies the minimum of the content height and 200, so the applied
height is independent of the previous height, equals the clamped
content height, and never exceeds 200. -/
theorem auto_resize_clamps_and_resets (prev prev2 : CssHeight)
    (scrollHeight : Nat) :
    appliedHeight prev scrollHeight = CssHeight.px (min scrollHeight 200) ∧
    appliedHeight prev scrollHeight = appliedHeight prev2 scrollHeight ∧
    (autoResizeAssignments scrollHeight).head? = some CssHeight.auto ∧
    pxValue (appliedHeight prev scrollHeight) ≤ 200 := by
  exact ⟨rfl, rfl, rfl, Nat.min_le_right scrollHeight 200⟩

/-- C7: cn ignores falsy fragments, keeps every token when the conflict
categories are pairwise distinct, lets a later token of the same
category override an earlier one, and on the conflicting pair
text-red-500 then text-blue-500 returns exactly text-blue-500. -/
theorem cn_merge_resolves_conflicts :
    ("text-blue-500" ∈
        cnTokens [ClassValue.str "text-red-500", ClassValue.str "text-blue-500"] ∧
      "text-red-500" ∉
        cnTokens [ClassValue.str "text-red-500", ClassValue.str "text-blue-500"] ∧
      cn [ClassValue.str "text-red-500", ClassValue.str "text-blue-500"] =
        "text-blue-500") ∧
    (∀ xs ys : List ClassValue,
      cnTokens (xs ++ ClassValue.falsy :: ys) = cnTokens (xs ++ ys)) ∧
    (∀ ts : List String,
      ts.Pairwise (fun a b => twGroup a ≠ twGroup b) → twMergeTokens ts = ts) ∧
    (∀ a b : String, twGroup a = twGroup b → twMergeTokens [a, b] = [b]) := by
  refine ⟨by decide, ?_, twMergeTokens_of_pairwise, ?_⟩
  · intro xs ys
    unfold cnTokens
    rw [clsxTokens_append, clsxTokens_append]
    rfl
  · intro a b hab
    simp [twMergeTokens, hab]

/-- Witness for C7: the falsy fragment removal, the preservation of a
conflict-free list, and the override of the earlier text color, each at
concrete inputs. -/
theorem cn_merge_resolves_conflicts_witness :
    cnTokens ([ClassValue.str "p-2"] ++ ClassValue.falsy :: [ClassValue.str "m-1"]) =
      cnTokens ([ClassValue.str "p-2"] ++ [ClassValue.str "m-1"]) ∧
    twMergeTokens ["p-2", "m-1"] = ["p-2", "m-1"] ∧
    twMergeTokens ["text-red-500", "text-blue-500"] = ["text-blue-500"] :=
  ⟨cn_merge_resolves_conflicts.2.1 [ClassValue.str "p-2"] [ClassValue.str "m-1"],
   cn_merge_resolves_conflicts.2.2.1 ["p-2", "m-1"]
     (List.Pairwise.cons (by decide) (List.pairwise_singleton _ _)),
   cn_merge_resolves_conflicts.2.2.2 "text-red-500" "text-blue-500" (by decide)⟩

/-- C8: evaluation of the rendered shape markup of all four page
configurations: no element carries pointer-events-none, so every
element of every shape intercepts pointer events under the CSS default,
even though no element attaches an event handler. -/
theorem elegant_shapes_intercept_pointer_events :
    pageShapes.all
      (fun cfg => (elegantShapeElements cfg).all interceptsPointerEvents) = true ∧
    pageShapes.all
      (fun cfg => (elegantShapeElements cfg).all
        (fun e => e.handlers.isEmpty)) = true := by decide

/-- C9: along every event sequence from mount, every argument ever
passed to onSend has a non-empty trimmed form. -/
theorem onSend_arguments_never_blank (es : List Event) (m : String)
    (h : m ∈ (run es).sent) : jsTrim m ≠ "" :=
  foldl_sent_invariant es initialState (by simp [initialState]) m h

/-- Witness for C9 on the trace that types a draft and presses Enter. -/
theorem onSend_arguments_never_blank_witness :
    ("Hi!" ∈ (run [Event.change "Hi!", Event.keyDown "Enter" false]).sent) ∧
    jsTrim "Hi!" ≠ "" :=
  ⟨by decide,
   onSend_arguments_never_blank [Event.change "Hi!", Event.keyDown "Enter" false]
     "Hi!" (by decide)⟩

/-- C10: Enter without Shift always calls preventDefault, even when the
trimmed draft is empty: the whitespace-only draft is left unchanged and
no unmodified Enter press ever appends a newline to the draft. -/
theorem enter_always_prevents_default (s : String) (L : List String) :
    (handleKeyDown ⟨s, L⟩ "Enter" false).1 = true ∧
    (jsTrim s = "" → keyDownStep ⟨s, L⟩ "Enter" false = ⟨s, L⟩) ∧
    (keyDownStep ⟨s, L⟩ "Enter" false).input ≠ s ++ "\n" := by
  have hred : keyDownStep ⟨s, L⟩ "Enter" false = handleSubmit ⟨s, L⟩ := by
    simp [keyDownStep, handleKeyDown]
  refine ⟨by simp [handleKeyDown], ?_, ?_⟩
  · intro h
    rw [hred]
    simp [handleSubmit, h]
  · rw [hred]
    by_cases hc : jsTrim s ≠ ""
    · simp only [handleSubmit, if_pos hc]
      intro he
      have hl : ("" : String).length = (s ++ "\n").length :=
        congrArg String.length he
      rw [String.length_append] at hl
      have h2 : ("\n" : String).length = 1 := rfl
      rw [h2] at hl
      simp at hl
    · simp only [handleSubmit, if_neg hc]
      intro he
      have hl : s.length = (s ++ "\n").length := congrArg String.length he
      rw [String.length_append] at hl
      have h2 : ("\n" : String).length = 1 := rfl
      rw [h2] at hl
      omega

/-- Witness for C10 at a one-space draft. -/
theorem enter_always_prevents_default_witness :
    (handleKeyDown ⟨" ", []⟩ "Enter" false).1 = true ∧
    keyDownStep ⟨" ", []⟩ "Enter" false = ⟨" ", []⟩ :=
  ⟨(enter_always_prevents_default " " []).1,
   (enter_always_prevents_default " " []).2.1 (by decide)⟩

end Inkspired
